import Mathlib

/- Verification of the Nexus Explorer account / API-key backend
   (src/main.py, src/schemas.py).

   Strings are modelled as `List Char`; the MongoDB collections are
   modelled as Lean lists of records, with `find_one` as `List.find?`
   (first match in insertion order), `insert_one` as append, and
   `update_one` as an update of the first matching record.  Values the
   program obtains from the outside world — SHA-256 digests, random
   salts, random tokens, object ids assigned by the store, the current
   time — are passed in as explicit parameters. -/

namespace Nexus

/-- Strings of the Python program, modelled as lists of characters. -/
abbrev Str := List Char

/-- Turn a Lean string literal into the model's string type. -/
def str (s : String) : Str := s.toList

/-- Python `s.split("$")`: split on every occurrence of the character
`'$'`; the empty string yields `[""]`. -/
def splitOnDollar : Str → List Str
  | [] => [[]]
  | c :: rest =>
    match splitOnDollar rest with
    | [] => [[]]
    | part :: parts =>
      if c = '$' then [] :: part :: parts else (c :: part) :: parts

/-- src/main.py `hash_password`.  The SHA-256 hex digest is a library
call external to the repository and is passed in as `sha256hex`; the
salt (freshly generated by `secrets.token_hex(16)` when the caller does
not supply one) is an explicit argument.  Returns `salt + "$" + digest`. -/
def hash_password (sha256hex : Str → Str) (password salt : Str) : Str :=
  salt ++ '$' :: sha256hex (salt ++ password)

/-- src/main.py `verify_password`: `stored_hash.split("$")` is unpacked
into exactly two variables; any other number of parts raises
`ValueError` in Python, which the function catches, returning `False`.
Otherwise the hash is recomputed with the stored salt and compared. -/
def verify_password (sha256hex : Str → Str) (password stored_hash : Str) : Bool :=
  match splitOnDollar stored_hash with
  | [salt, _h] => hash_password sha256hex password salt == stored_hash
  | _ => false

/-- The output alphabet of `secrets.token_hex` and of `hexdigest`. -/
def hexDigits : Str := str "0123456789abcdef"

/-- A string over the lowercase-hex alphabet. -/
def IsHex (s : Str) : Prop := ∀ c ∈ s, c ∈ hexDigits

/-- A salt as produced by `secrets.token_hex(16)`: 32 lowercase hex
characters. -/
def IsFreshSalt (s : Str) : Prop := s.length = 32 ∧ IsHex s

/-- A SHA-256 hex-digest oracle: every output is a hex string, as
`hashlib.sha256(...).hexdigest()` guarantees. -/
def IsHexFun (f : Str → Str) : Prop := ∀ s, IsHex (f s)

instance (s : Str) : Decidable (IsHex s) :=
  inferInstanceAs (Decidable (∀ c ∈ s, c ∈ hexDigits))

instance (s : Str) : Decidable (IsFreshSalt s) :=
  inferInstanceAs (Decidable (s.length = 32 ∧ IsHex s))

/-- An error raised via FastAPI's `HTTPException`. -/
structure HTTPError where
  status_code : Nat
  detail : Str
deriving DecidableEq

/-- A document of the `user` collection (src/schemas.py `User`, plus the
fields `register` writes).  Object ids and timestamps are modelled as
naturals. -/
structure UserDoc where
  _id : Nat
  username : Str
  email : Str
  password_hash : Str
  active_tokens : List Str
  created_at : Nat
  updated_at : Nat
deriving DecidableEq

/-- A document of the `apikey` collection (src/schemas.py `Apikey`, plus
the fields `create_api_key` writes). -/
structure ApiKeyDoc where
  _id : Nat
  user_id : Nat
  label : Str
  key : Str
  usage_count : Nat
  created_at : Nat
  updated_at : Nat
deriving DecidableEq

/-- MongoDB `update_one`: apply `f` to the first document matching `p`,
leaving every other document unchanged. -/
def updateOne {α : Type} (p : α → Bool) (f : α → α) : List α → List α
  | [] => []
  | u :: rest => if p u then f u :: rest else u :: updateOne p f rest

/-- src/main.py `require_auth`: reject a missing header, an empty header
(falsy in Python) or one not starting with `"Bearer "`; otherwise the
token is everything after the first space (= after the 7-character
prefix), and the user is the first one whose `active_tokens` contains
it. -/
def require_auth (db : List UserDoc) (authorization : Option Str) :
    Except HTTPError UserDoc :=
  match authorization with
  | none => .error ⟨401, str "Unauthorized"⟩
  | some auth =>
    if auth.isEmpty || !(auth.take 7 == str "Bearer ") then
      .error ⟨401, str "Unauthorized"⟩
    else
      match db.find? (fun u => u.active_tokens.contains (auth.drop 7)) with
      | none => .error ⟨401, str "Invalid token"⟩
      | some user => .ok user

/-- src/main.py `register`: one combined `$or` existence query over
email and username; on conflict a single 400 error; otherwise insert the
new user (store-assigned id `newId`, both timestamps `now`, freshly
salted hash, empty token list) and return its id. -/
def register (db : List UserDoc) (username email password : Str)
    (sha256hex : Str → Str) (salt : Str) (newId now : Nat) :
    Except HTTPError (List UserDoc × Nat) :=
  if (db.find? (fun u => u.email == email || u.username == username)).isSome then
    .error ⟨400, str "Username or email already exists"⟩
  else
    .ok (db ++ [{ _id := newId, username := username, email := email,
                  password_hash := hash_password sha256hex password salt,
                  active_tokens := [], created_at := now, updated_at := now }],
         newId)

/-- src/main.py `login`: look up the first user with the given email;
a missing user and a failed `verify_password` produce the identical 401;
on success `$push` the fresh `token` onto `active_tokens` and `$set`
`updated_at := now`, returning the new state, the token and the user's
id. -/
def login (db : List UserDoc) (email password : Str) (sha256hex : Str → Str)
    (token : Str) (now : Nat) :
    Except HTTPError (List UserDoc × Str × Nat) :=
  match db.find? (fun u => u.email == email) with
  | none => .error ⟨401, str "Invalid credentials"⟩
  | some user =>
    if verify_password sha256hex password user.password_hash then
      .ok (updateOne (fun v => v._id == user._id)
             (fun v => { v with active_tokens := v.active_tokens ++ [token],
                                updated_at := now }) db,
           token, user._id)
    else .error ⟨401, str "Invalid credentials"⟩

/-- The `$pull` update run by `logout`: remove every occurrence of the
token from `active_tokens`.  No other field is written — in particular
`updated_at` is not. -/
def pull_token (token : Str) (u : UserDoc) : UserDoc :=
  { u with active_tokens := u.active_tokens.filter (fun t => !(t == token)) }

/-- src/main.py `logout`: authenticate via `require_auth`, re-read the
token from the header, and `$pull` it from the authenticated user's
`active_tokens`.  (The inner `match` on the header is reachable only
with `some`, since `require_auth` has already rejected `none`.) -/
def logout (db : List UserDoc) (authorization : Option Str) :
    Except HTTPError (List UserDoc) :=
  match require_auth db authorization with
  | .error e => .error e
  | .ok user =>
    match authorization with
    | none => .error ⟨500, str "Internal Server Error"⟩
    | some auth =>
      .ok (updateOne (fun v => v._id == user._id) (pull_token (auth.drop 7)) db)

/-- src/main.py `update_me` for the authenticated `user`.  Python
truthiness: a field that is absent or the empty string is skipped.  A
supplied field is checked for uniqueness against all other users; the
collected updates are applied with a single `$set` that also refreshes
`updated_at`, but only when at least one field was supplied. -/
def update_me (db : List UserDoc) (payload_username payload_email : Option Str)
    (user : UserDoc) (now : Nat) : Except HTTPError (List UserDoc) :=
  let uRes : Except HTTPError (Option Str) :=
    match payload_username with
    | some u =>
      if u.isEmpty then .ok none
      else if (db.find? (fun v => v.username == u && !(v._id == user._id))).isSome then
        .error ⟨400, str "Username already taken"⟩
      else .ok (some u)
    | none => .ok none
  match uRes with
  | .error e => .error e
  | .ok newU =>
    let eRes : Except HTTPError (Option Str) :=
      match payload_email with
      | some em =>
        if em.isEmpty then .ok none
        else if (db.find? (fun v => v.email == em && !(v._id == user._id))).isSome then
          .error ⟨400, str "Email already taken"⟩
        else .ok (some em)
      | none => .ok none
    match eRes with
    | .error e => .error e
    | .ok newE =>
      if newU.isNone && newE.isNone then .ok db
      else
        .ok (updateOne (fun v => v._id == user._id)
               (fun v => { v with username := newU.getD v.username,
                                  email := newE.getD v.email,
                                  updated_at := now }) db)

/-- src/main.py `create_api_key` for the authenticated `user`: the key is
`"nex_"` plus a random url-safe `suffix`; the label is
`payload.username or user["username"]` (Python `or`: `None` and `""` both
fall back to the username); `usage_count` starts at 0. -/
def create_api_key (keydb : List ApiKeyDoc) (payload_username : Option Str)
    (user : UserDoc) (suffix : Str) (newId now : Nat) :
    List ApiKeyDoc × Str × Nat :=
  let api_key := str "nex_" ++ suffix
  let label :=
    match payload_username with
    | some l => if l.isEmpty then user.username else l
    | none => user.username
  (keydb ++ [{ _id := newId, user_id := user._id, label := label,
               key := api_key, usage_count := 0,
               created_at := now, updated_at := now }],
   api_key, newId)

/-- src/main.py `use_api`: look up the key by its raw string; 404 if
absent, otherwise `$inc` its `usage_count` by 1 and `$set`
`updated_at := now` on that single document. -/
def use_api (keydb : List ApiKeyDoc) (key : Str) (now : Nat) :
    Except HTTPError (List ApiKeyDoc) :=
  match keydb.find? (fun k => k.key == key) with
  | none => .error ⟨404, str "API key not found"⟩
  | some doc =>
    .ok (updateOne (fun k => k._id == doc._id)
           (fun k => { k with usage_count := k.usage_count + 1,
                              updated_at := now }) keydb)

/-- The state of the `apikey` collection after a `use_api` request: a
raised `HTTPException` aborts the request before any write, leaving the
collection as it was. -/
def use_api_state (keydb : List ApiKeyDoc) (key : Str) (now : Nat) :
    List ApiKeyDoc :=
  match use_api keydb key now with
  | .error _ => keydb
  | .ok keydb2 => keydb2

/-- src/main.py `stats` for the authenticated `user`:
`count_documents` over the user's keys, and an aggregation pipeline that
groups the matching documents into a single total — the pipeline yields
no row at all when no document matches, in which case the code falls
back to 0. -/
def stats (keydb : List ApiKeyDoc) (user : UserDoc) : Nat × Nat :=
  let total_keys := (keydb.filter (fun k => k.user_id == user._id)).length
  let matched := keydb.filter (fun k => k.user_id == user._id)
  let agg : List Nat :=
    if matched.isEmpty then [] else [(matched.map (fun k => k.usage_count)).sum]
  let total_usage := match agg with | [] => 0 | t :: _ => t
  (total_keys, total_usage)

instance {ε α : Type} [DecidableEq ε] [DecidableEq α] : DecidableEq (Except ε α)
  | .error e1, .error e2 =>
    if h : e1 = e2 then .isTrue (by rw [h])
    else .isFalse (by intro hh; cases hh; exact h rfl)
  | .error _, .ok _ => .isFalse (by intro hh; cases hh)
  | .ok _, .error _ => .isFalse (by intro hh; cases hh)
  | .ok a1, .ok a2 =>
    if h : a1 = a2 then .isTrue (by rw [h])
    else .isFalse (by intro hh; cases hh; exact h rfl)

/-- The value of a profile field after Python truthiness filtering in
`update_me`: a field that is absent or the empty string is skipped. -/
def effField : Option Str → Option Str
  | some s => if s.isEmpty then none else some s
  | none => none

/-- A fixed digest oracle for concrete witnesses: constant hex output. -/
def exSha : Str → Str := fun _ => str "0a1b"

/-- A 32-character witness salt. -/
def exSalt : Str := str "aaaaaaaaaaaaaaaaaaaaaaaaaaaaaaaa"

/-- The stored hash of the password `"secret1"` under `exSha`/`exSalt`. -/
def exHash : Str := hash_password exSha (str "secret1") exSalt

/-- A witness user with no active session. -/
def alice : UserDoc :=
  { _id := 1, username := str "alice", email := str "a@x.com",
    password_hash := exHash, active_tokens := [], created_at := 0, updated_at := 0 }

/-- A witness user holding one active session token `"tok1"`. -/
def aliceTok : UserDoc := { alice with active_tokens := [str "tok1"] }

/-- A second witness user. -/
def bob : UserDoc :=
  { _id := 2, username := str "bob", email := str "b@x.com",
    password_hash := exHash, active_tokens := [], created_at := 0, updated_at := 0 }

/-- Witness API keys owned by user 1, with usage counts 3, 5 and 0. -/
def exKeys : List ApiKeyDoc :=
  [ { _id := 10, user_id := 1, label := str "alice", key := str "nex_k1",
      usage_count := 3, created_at := 0, updated_at := 0 },
    { _id := 11, user_id := 1, label := str "alice", key := str "nex_k2",
      usage_count := 5, created_at := 1, updated_at := 1 },
    { _id := 12, user_id := 1, label := str "alice", key := str "nex_k3",
      usage_count := 0, created_at := 2, updated_at := 2 } ]

theorem find?_append_left {α : Type} {p : α → Bool} {l1 l2 : List α}
    (h : ∀ x ∈ l1, p x = false) : (l1 ++ l2).find? p = l2.find? p := by
  rw [List.find?_append]
  have hn : l1.find? p = none := List.find?_eq_none.2 (by intro x hx; simp [h x hx])
  rw [hn]
  rfl

theorem updateOne_append_left {α : Type} {p : α → Bool} {f : α → α} {l1 l2 : List α}
    (h : ∀ x ∈ l1, p x = false) :
    updateOne p f (l1 ++ l2) = l1 ++ updateOne p f l2 := by
  induction l1 with
  | nil => rfl
  | cons a t ih =>
    have ha : p a = false := h a (List.mem_cons_self _ _)
    simp [updateOne, ha, ih (fun x hx => h x (List.mem_cons_of_mem _ hx))]

theorem updateOne_cons_pos {α : Type} {p : α → Bool} {f : α → α} {a : α} {l : List α}
    (h : p a = true) : updateOne p f (a :: l) = f a :: l := by
  simp [updateOne, h]

theorem updateOne_map_eq {α β : Type} {p : α → Bool} {f : α → α} (g : α → β)
    (h : ∀ x, g (f x) = g x) (l : List α) :
    (updateOne p f l).map g = l.map g := by
  induction l with
  | nil => rfl
  | cons a t ih => cases hp : p a <;> simp [updateOne, hp, h a, ih]

theorem nodup_decomp_proj {α β : Type} (g : α → β) {l1 l2 : List α} {u : α}
    (h : ((l1 ++ u :: l2).map g).Nodup) : ∀ x ∈ l1, g x ≠ g u := by
  intro x hx
  rw [List.map_append, List.nodup_append] at h
  have hd := h.2.2
  rw [List.disjoint_left] at hd
  have hmem : g x ∈ l1.map g := List.mem_map_of_mem g hx
  have hne : g x ∉ (u :: l2).map g := hd hmem
  intro he
  exact hne (by rw [he]; exact List.mem_cons_self _ _)

theorem contains_eq_true {α : Type} [BEq α] [LawfulBEq α] {l : List α} {a : α}
    (h : a ∈ l) : l.contains a = true :=
  List.elem_iff.2 h

theorem contains_eq_false {α : Type} [BEq α] [LawfulBEq α] {l : List α} {a : α}
    (h : a ∉ l) : l.contains a = false := by
  rw [Bool.eq_false_iff]
  intro hc
  exact h (List.elem_iff.1 hc)

/-- With a well-formed `Bearer` header, `require_auth` reduces to the
token lookup over `active_tokens`. -/
theorem require_auth_bearer (db : List UserDoc) (token : Str) :
    require_auth db (some (str "Bearer " ++ token))
      = match db.find? (fun u => u.active_tokens.contains token) with
        | none => .error ⟨401, str "Invalid token"⟩
        | some user => .ok user := by
  have h7 : (str "Bearer ").length = 7 := by decide
  have htake : (str "Bearer " ++ token).take 7 = str "Bearer " := by
    rw [← h7, List.take_left]
  have hdrop : (str "Bearer " ++ token).drop 7 = token := by
    rw [← h7, List.drop_left]
  have hne : (str "Bearer " ++ token).isEmpty = false := by
    cases token <;> rfl
  unfold require_auth
  dsimp only
  rw [htake, hdrop, hne]
  simp

/-- If some element of the list matches, then after `updateOne` the list
contains the image under `f` of a matching element. -/
theorem updateOne_exists_updated {α : Type} {p : α → Bool} {f : α → α} {l : List α}
    (h : ∃ x ∈ l, p x = true) :
    ∃ x ∈ l, p x = true ∧ f x ∈ updateOne p f l := by
  induction l with
  | nil =>
    rcases h with ⟨x, hx, _⟩
    cases hx
  | cons a t ih =>
    cases hp : p a with
    | false =>
      have h' : ∃ x ∈ t, p x = true := by
        rcases h with ⟨x, hx, hpx⟩
        rcases List.mem_cons.1 hx with rfl | hxt
        · rw [hp] at hpx
          cases hpx
        · exact ⟨x, hxt, hpx⟩
      rcases ih h' with ⟨x, hxt, hpx, hmem⟩
      refine ⟨x, List.mem_cons_of_mem _ hxt, hpx, ?_⟩
      simp [updateOne, hp]
      exact Or.inr hmem
    | true =>
      refine ⟨a, List.mem_cons_self _ _, hp, ?_⟩
      simp [updateOne, hp]

theorem not_dollar_of_hex {s : Str} (h : IsHex s) : '$' ∉ s := by
  intro hm
  exact absurd (h _ hm) (by decide)

theorem splitOnDollar_ne_nil (s : Str) : splitOnDollar s ≠ [] := by
  induction s with
  | nil => simp [splitOnDollar]
  | cons c rest ih =>
    simp only [splitOnDollar]
    cases h : splitOnDollar rest with
    | nil => simp
    | cons part parts =>
      by_cases hc : c = '$' <;> simp [hc]

theorem splitOnDollar_no_dollar {s : Str} (h : '$' ∉ s) : splitOnDollar s = [s] := by
  induction s with
  | nil => rfl
  | cons c rest ih =>
    have hc : ¬(c = '$') := by
      rintro rfl
      exact h (List.mem_cons_self _ _)
    have hrest : '$' ∉ rest := fun hm => h (List.mem_cons_of_mem _ hm)
    simp [splitOnDollar, ih hrest, hc]

theorem splitOnDollar_append {a b : Str} (ha : '$' ∉ a) :
    splitOnDollar (a ++ '$' :: b) = a :: splitOnDollar b := by
  induction a with
  | nil =>
    simp only [List.nil_append, splitOnDollar]
    cases h : splitOnDollar b with
    | nil => exact absurd h (splitOnDollar_ne_nil b)
    | cons part parts => simp
  | cons c rest ih =>
    have hc : ¬(c = '$') := by
      rintro rfl
      exact ha (List.mem_cons_self _ _)
    have hrest : '$' ∉ rest := fun hm => ha (List.mem_cons_of_mem _ hm)
    rw [List.cons_append]
    simp only [splitOnDollar]
    rw [ih hrest]
    simp [hc]

theorem splitOnDollar_length (s : Str) :
    (splitOnDollar s).length = s.count '$' + 1 := by
  induction s with
  | nil => rfl
  | cons c rest ih =>
    simp only [splitOnDollar]
    cases h : splitOnDollar rest with
    | nil => exact absurd h (splitOnDollar_ne_nil rest)
    | cons part parts =>
      rw [h] at ih
      by_cases hc : c = '$'
      · subst hc
        simp only [if_pos rfl, List.length_cons, List.count_cons]
        simp at ih ⊢
        omega
      · simp only [if_neg hc, List.length_cons, List.count_cons]
        have hbc : (c == '$') = false := by
          simp [hc]
        simp [hbc] at ih ⊢
        omega

/-- C1: verifying a password against the stored hash freshly produced by
`hash_password` with a generated salt succeeds: for every SHA-256 oracle
(whose digests are hex strings), every password and every fresh salt
(32 hex characters, as `secrets.token_hex(16)` generates),
`verify_password p (hash_password p salt) = true`. -/
theorem verify_password_of_hash_password (sha256hex : Str → Str) (password salt : Str)
    (hsha : IsHexFun sha256hex) (hsalt : IsFreshSalt salt) :
    verify_password sha256hex password (hash_password sha256hex password salt) = true := by
  have hns : '$' ∉ salt := not_dollar_of_hex hsalt.2
  have hnd : '$' ∉ sha256hex (salt ++ password) := not_dollar_of_hex (hsha _)
  unfold verify_password hash_password
  rw [splitOnDollar_append hns, splitOnDollar_no_dollar hnd]
  simp [hash_password]

/-- Witness for C1 at a concrete password, salt and digest oracle. -/
theorem verify_password_of_hash_password_witness :
    verify_password (fun _ => str "0a1b") (str "secret1")
      (hash_password (fun _ => str "0a1b") (str "secret1")
        (str "aaaaaaaaaaaaaaaaaaaaaaaaaaaaaaaa")) = true :=
  verify_password_of_hash_password _ _ _
    (fun _ => by decide) (by constructor <;> decide)

/-- C2: `verify_password` is a total function (by construction in this
model, mirroring that the Python code catches the only statement that
can raise), and on every malformed stored hash — one whose number of
`'$'` separators differs from exactly one, covering `"nosep"`, `""` and
`"a$b$c"` — it returns `false`. -/
theorem verify_password_malformed (sha256hex : Str → Str) (password stored_hash : Str)
    (h : stored_hash.count '$' ≠ 1) :
    verify_password sha256hex password stored_hash = false := by
  have hl : (splitOnDollar stored_hash).length ≠ 2 := by
    rw [splitOnDollar_length]
    omega
  rcases hs : splitOnDollar stored_hash with _ | ⟨a, _ | ⟨b, _ | ⟨c, t3⟩⟩⟩
  · unfold verify_password
    rw [hs]
  · unfold verify_password
    rw [hs]
  · rw [hs] at hl
    simp at hl
  · unfold verify_password
    rw [hs]

/-- Witness for C2 on the three malformed inputs named by the claim. -/
theorem verify_password_malformed_witness :
    verify_password (fun _ => str "0a1b") (str "pw") (str "nosep") = false ∧
    verify_password (fun _ => str "0a1b") (str "pw") (str "") = false ∧
    verify_password (fun _ => str "0a1b") (str "pw") (str "a$b$c") = false :=
  ⟨verify_password_malformed _ _ _ (by decide),
   verify_password_malformed _ _ _ (by decide),
   verify_password_malformed _ _ _ (by decide)⟩

/-- C9: for every user, `stats` returns `totalKeys` equal to the number
of API-key records owned by that user and `totalUsage` equal to the sum
of their `usage_count`s; when the user owns no keys it returns `(0, 0)`
rather than an error or a missing value. -/
theorem stats_correct (keydb : List ApiKeyDoc) (user : UserDoc) :
    stats keydb user
      = ((keydb.filter (fun k => k.user_id == user._id)).length,
         ((keydb.filter (fun k => k.user_id == user._id)).map
            (fun k => k.usage_count)).sum)
    ∧ ((∀ k ∈ keydb, (k.user_id == user._id) = false) →
        stats keydb user = (0, 0)) := by
  constructor
  · unfold stats
    cases h : keydb.filter (fun k => k.user_id == user._id) with
    | nil => simp [h]
    | cons a t => simp [h]
  · intro h
    have hf : keydb.filter (fun k => k.user_id == user._id) = [] := by
      rw [List.filter_eq_nil_iff]
      intro a ha
      simp [h a ha]
    unfold stats
    simp [hf]

/-- Witness for C9: the keys with usage counts `[3, 5, 0]` yield
`(3, 8)`, and a keyless user yields `(0, 0)`. -/
theorem stats_correct_witness :
    stats exKeys alice = (3, 8) ∧ stats [] alice = (0, 0) :=
  ⟨by rw [(stats_correct exKeys alice).1]; decide,
   (stats_correct [] alice).2 (by decide)⟩

/-- C10: a label that is supplied but falsy in Python (absent, or the
empty string) is treated exactly like an omitted label: the created
key's label is the owner's current username — never the empty string,
since usernames are validated to at least 3 characters
(src/schemas.py `User`, src/main.py `RegisterRequest`). -/
theorem create_api_key_falsy_label (keydb : List ApiKeyDoc)
    (payload_username : Option Str) (user : UserDoc) (suffix : Str) (newId now : Nat)
    (hfalsy : payload_username = none ∨ payload_username = some [])
    (hlen : 3 ≤ user.username.length) :
    create_api_key keydb payload_username user suffix newId now
      = (keydb ++ [{ _id := newId, user_id := user._id, label := user.username,
                     key := str "nex_" ++ suffix, usage_count := 0,
                     created_at := now, updated_at := now }],
         str "nex_" ++ suffix, newId)
    ∧ user.username ≠ [] := by
  constructor
  · rcases hfalsy with h | h <;> subst h <;> rfl
  · intro h
    rw [h] at hlen
    simp at hlen

/-- Witness for C10: creating a key with the supplied label `""`. -/
theorem create_api_key_falsy_label_witness :
    create_api_key [] (some []) alice (str "sfx") 10 3
      = ([{ _id := 10, user_id := 1, label := str "alice",
            key := str "nex_sfx", usage_count := 0,
            created_at := 3, updated_at := 3 }],
         str "nex_sfx", 10)
    ∧ (str "alice") ≠ [] :=
  create_api_key_falsy_label [] (some []) alice (str "sfx") 10 3
    (Or.inr rfl) (by decide)

/-- C5: `register` fails with the single Conflict error (one combined
`$or` existence check, the same error value for a taken username and a
taken email) when any existing user has the same username or the same
email; otherwise it inserts the new user with a freshly salted password
hash and an empty `active_tokens` list and returns its id. -/
theorem register_conflict_or_create (db : List UserDoc)
    (username email password : Str) (sha256hex : Str → Str) (salt : Str)
    (newId now : Nat) :
    ((∃ u ∈ db, u.username = username ∨ u.email = email) →
       register db username email password sha256hex salt newId now
         = .error ⟨400, str "Username or email already exists"⟩)
    ∧ ((∀ u ∈ db, u.username ≠ username ∧ u.email ≠ email) →
       register db username email password sha256hex salt newId now
         = .ok (db ++ [{ _id := newId, username := username, email := email,
                         password_hash := hash_password sha256hex password salt,
                         active_tokens := [], created_at := now,
                         updated_at := now }],
                newId)) := by
  constructor
  · rintro ⟨u, hu, hcase⟩
    have hsome : (db.find? (fun u => u.email == email || u.username == username)).isSome
        = true := by
      rw [List.find?_isSome]
      exact ⟨u, hu, by rcases hcase with h | h <;> simp [h]⟩
    simp [register, hsome]
  · intro h
    have hnone : db.find? (fun u => u.email == email || u.username == username)
        = none := by
      rw [List.find?_eq_none]
      intro u hu
      simp [(h u hu).1, (h u hu).2]
    simp [register, hnone]

/-- Witness for C5: registering a taken username (with a fresh email)
conflicts, and registering a fresh username and email succeeds with the
expected record. -/
theorem register_conflict_or_create_witness :
    (register [alice] (str "alice") (str "x@y.com") (str "pw7777") exSha exSalt 2 5
       = .error ⟨400, str "Username or email already exists"⟩)
    ∧ (register [alice] (str "bob") (str "b@x.com") (str "pw7777") exSha exSalt 2 5
       = .ok ([alice] ++ [{ _id := 2, username := str "bob", email := str "b@x.com",
                            password_hash := hash_password exSha (str "pw7777") exSalt,
                            active_tokens := [], created_at := 5, updated_at := 5 }],
              2)) :=
  ⟨(register_conflict_or_create [alice] (str "alice") (str "x@y.com") (str "pw7777")
      exSha exSalt 2 5).1 ⟨alice, by decide, by decide⟩,
   (register_conflict_or_create [alice] (str "bob") (str "b@x.com") (str "pw7777")
      exSha exSalt 2 5).2 (by decide)⟩

/-- C7: `use_api` on an unknown key fails with 404 NotFound and leaves
the collection unchanged; on a present key it increments exactly that
record's `usage_count` by 1 and refreshes its `updated_at`, touching no
other record (the records of `l1` and `l2` are returned as they were). -/
theorem use_api_not_found_or_increment (keydb : List ApiKeyDoc) (key : Str)
    (now : Nat) :
    ((∀ k ∈ keydb, k.key ≠ key) →
       use_api keydb key now = .error ⟨404, str "API key not found"⟩
       ∧ use_api_state keydb key now = keydb)
    ∧ (∀ l1 doc l2, keydb = l1 ++ doc :: l2 → doc.key = key →
         (∀ x ∈ l1, x.key ≠ key) →
         (keydb.map (fun k => k._id)).Nodup →
         use_api keydb key now
           = .ok (l1 ++ { doc with usage_count := doc.usage_count + 1,
                                   updated_at := now } :: l2)) := by
  constructor
  · intro h
    have hnone : keydb.find? (fun k => k.key == key) = none := by
      rw [List.find?_eq_none]
      intro k hk
      simp [h k hk]
    constructor
    · simp [use_api, hnone]
    · simp [use_api_state, use_api, hnone]
  · intro l1 doc l2 hdb hkey hl1 hnodup
    subst hdb
    have hl1' : ∀ x ∈ l1, (fun k => k.key == key) x = false := by
      intro x hx
      simp [hl1 x hx]
    have hfind : (l1 ++ doc :: l2).find? (fun k => k.key == key) = some doc := by
      rw [find?_append_left hl1', List.find?_cons]
      simp [hkey]
    have hids : ∀ x ∈ l1, (fun k => (k._id == doc._id : Bool)) x = false := by
      intro x hx
      have := nodup_decomp_proj (fun k => k._id) hnodup x hx
      simp [this]
    unfold use_api
    rw [hfind]
    dsimp only
    rw [updateOne_append_left hids, updateOne_cons_pos (by simp)]

/-- Witness for C7: an unknown key 404s and leaves the three witness
keys untouched; using the key `"nex_k2"` bumps only its counter. -/
theorem use_api_not_found_or_increment_witness :
    (use_api exKeys (str "nex_zz") 7 = .error ⟨404, str "API key not found"⟩
     ∧ use_api_state exKeys (str "nex_zz") 7 = exKeys)
    ∧ use_api exKeys (str "nex_k2") 7
        = .ok ([{ _id := 10, user_id := 1, label := str "alice", key := str "nex_k1",
                  usage_count := 3, created_at := 0, updated_at := 0 }]
               ++ { _id := 11, user_id := 1, label := str "alice", key := str "nex_k2",
                    usage_count := 6, created_at := 1, updated_at := 7 }
               :: [{ _id := 12, user_id := 1, label := str "alice", key := str "nex_k3",
                     usage_count := 0, created_at := 2, updated_at := 2 }]) :=
  ⟨(use_api_not_found_or_increment exKeys (str "nex_zz") 7).1 (by decide),
   (use_api_not_found_or_increment exKeys (str "nex_k2") 7).2
     [{ _id := 10, user_id := 1, label := str "alice", key := str "nex_k1",
        usage_count := 3, created_at := 0, updated_at := 0 }]
     { _id := 11, user_id := 1, label := str "alice", key := str "nex_k2",
       usage_count := 5, created_at := 1, updated_at := 1 }
     [{ _id := 12, user_id := 1, label := str "alice", key := str "nex_k3",
        usage_count := 0, created_at := 2, updated_at := 2 }]
     rfl rfl (by decide) (by decide)⟩

/-- C8 (amended): `update_me` applies only the supplied (truthy) fields
and leaves untouched fields as-is; when neither field is supplied (or
both are empty, hence falsy) it succeeds as a no-op with the collection
unchanged; and it refreshes `updated_at` whenever at least one field is
supplied — even if the supplied value equals the current one.  The
record `w` is the caller's document in the store; all other records are
returned unchanged. -/
theorem update_me_frame (db l1 l2 : List UserDoc) (w user : UserDoc)
    (payload_username payload_email : Option Str) (now : Nat)
    (hdb : db = l1 ++ w :: l2)
    (hl1 : ∀ x ∈ l1, x._id ≠ user._id)
    (hw : w._id = user._id)
    (hcu : ∀ s, effField payload_username = some s →
       db.find? (fun v => v.username == s && !(v._id == user._id)) = none)
    (hce : ∀ s, effField payload_email = some s →
       db.find? (fun v => v.email == s && !(v._id == user._id)) = none) :
    update_me db payload_username payload_email user now
      = if (effField payload_username).isNone && (effField payload_email).isNone
        then .ok db
        else .ok (l1 ++ { w with
                    username := (effField payload_username).getD w.username,
                    email := (effField payload_email).getD w.email,
                    updated_at := now } :: l2) := by
  have hl1' : ∀ x ∈ l1, (fun v => (v._id == user._id : Bool)) x = false := by
    intro x hx
    simp [hl1 x hx]
  have hwb : (w._id == user._id) = true := by simp [hw]
  have hupd : ∀ f : UserDoc → UserDoc,
      updateOne (fun v => v._id == user._id) f (l1 ++ w :: l2) = l1 ++ f w :: l2 := by
    intro f
    rw [updateOne_append_left hl1',
        @updateOne_cons_pos UserDoc (fun v => v._id == user._id) f w l2 hwb]
  subst hdb
  cases payload_username with
  | none =>
    cases payload_email with
    | none => simp [update_me, effField]
    | some em =>
      by_cases he : em.isEmpty
      · simp [update_me, effField, he]
      · have hce' := hce em (by simp [effField, he])
        simp [update_me, effField, he, hce', hupd]
  | some u =>
    by_cases hue : u.isEmpty
    · cases payload_email with
      | none => simp [update_me, effField, hue]
      | some em =>
        by_cases he : em.isEmpty
        · simp [update_me, effField, hue, he]
        · have hce' := hce em (by simp [effField, he])
          simp [update_me, effField, hue, he, hce', hupd]
    · have hcu' := hcu u (by simp [effField, hue])
      cases payload_email with
      | none => simp [update_me, effField, hue, hcu', hupd]
      | some em =>
        by_cases he : em.isEmpty
        · simp [update_me, effField, hue, he, hcu', hupd]
        · have hce' := hce em (by simp [effField, he])
          simp [update_me, effField, hue, he, hcu', hce', hupd]

/-- Counterexample to C8 as stated: supplying the user's own current
username changes no field, yet `updated_at` is refreshed (from 0 to the
request time 7) — refuting "refreshes `updated_at` only when at least
one field changes". -/
theorem update_me_refresh_without_change_cex :
    update_me [alice] (some (str "alice")) none alice 7
      = .ok [{ alice with updated_at := 7 }]
    ∧ ({ alice with updated_at := 7 }).username = alice.username
    ∧ ({ alice with updated_at := 7 }).email = alice.email
    ∧ ({ alice with updated_at := 7 }).updated_at ≠ alice.updated_at :=
  ⟨by decide, rfl, rfl, by decide⟩

/-- Witness for C8 (amended): a no-op call with no fields, and a call
renaming `alice` to `"alicia"` that leaves the email as-is and
refreshes `updated_at`. -/
theorem update_me_frame_witness :
    update_me [alice] none none alice 7 = .ok [alice]
    ∧ update_me [alice] (some (str "alicia")) none alice 7
        = .ok [{ alice with username := str "alicia", updated_at := 7 }] := by
  constructor
  · have h := update_me_frame [alice] [] [] alice alice none none 7 rfl
      (by intro x hx; cases hx) rfl
      (by intro s hs; cases hs) (by intro s hs; cases hs)
    simpa using h
  · have h := update_me_frame [alice] [] [] alice alice (some (str "alicia")) none 7 rfl
      (by intro x hx; cases hx) rfl
      (by intro s hs
          have h3 : effField (some (str "alicia")) = some (str "alicia") := by decide
          rw [h3] at hs
          have h2 := Option.some.inj hs
          subst h2
          decide)
      (by intro s hs; cases hs)
    simpa using h

/-- Counterexample to C3 as stated: at a request time of 5, `logout`
mutates the user record (it removes the token `"tok1"`), yet leaves
`updated_at` at its old value 0 — the `$pull` update of `logout` sets no
`updated_at`, so this mutating operation does not refresh the
timestamp. -/
theorem logout_no_refresh_cex :
    logout [aliceTok] (some (str "Bearer tok1"))
      = .ok [{ aliceTok with active_tokens := [] }]
    ∧ ({ aliceTok with active_tokens := [] }).updated_at = 0
    ∧ (0 : Nat) ≠ 5 :=
  ⟨by decide, rfl, by decide⟩

/-- C3 (amended): `login` refreshes the logged-in user's `updated_at` to
the request time while adding the token, but `logout` mutates only
`active_tokens` and leaves every user's `updated_at` unchanged. -/
theorem login_refreshes_logout_does_not :
    (∀ db email password sha256hex token now db1 t uid,
       login db email password sha256hex token now = .ok (db1, t, uid) →
       ∃ u2 ∈ db1, u2._id = uid ∧ u2.updated_at = now ∧ token ∈ u2.active_tokens)
    ∧ (∀ db authorization db2,
       logout db authorization = .ok db2 →
       db2.map (fun v => v.updated_at) = db.map (fun v => v.updated_at)) := by
  constructor
  · intro db email password sha256hex token now db1 t uid hlogin
    unfold login at hlogin
    cases hfind : db.find? (fun u => u.email == email) with
    | none =>
      rw [hfind] at hlogin
      cases hlogin
    | some u =>
      rw [hfind] at hlogin
      dsimp only at hlogin
      by_cases hver : verify_password sha256hex password u.password_hash = true
      · rw [if_pos hver] at hlogin
        obtain ⟨hdb1, htok, huid⟩ : _ ∧ _ ∧ _ := by simpa using hlogin
        have hexists : ∃ x ∈ db, (x._id == u._id) = true :=
          ⟨u, List.mem_of_find?_eq_some hfind, by simp⟩
        rcases @updateOne_exists_updated UserDoc (fun v => v._id == u._id)
            (fun v => { v with active_tokens := v.active_tokens ++ [token],
                               updated_at := now }) db hexists
          with ⟨x, hxdb, hpx, hmem⟩
        rw [hdb1] at hmem
        refine ⟨_, hmem, ?_, rfl, ?_⟩
        · have : x._id = u._id := by simpa using hpx
          rw [this, huid]
        · simp
      · rw [if_neg hver] at hlogin
        cases hlogin
  · intro db authorization db2 hlo
    unfold logout at hlo
    cases hra : require_auth db authorization with
    | error e =>
      rw [hra] at hlo
      cases hlo
    | ok user =>
      rw [hra] at hlo
      cases authorization with
      | none =>
        dsimp only at hlo
        cases hlo
      | some auth =>
        dsimp only at hlo
        injection hlo with h
        rw [← h]
        exact @updateOne_map_eq UserDoc Nat (fun v => v._id == user._id)
          (pull_token (auth.drop 7)) (fun v => v.updated_at) (fun x => rfl) db

/-- Witness for C3 (amended): a concrete login at time 5 refreshes the
timestamp; the concrete logout of `"tok1"` leaves the timestamps
unchanged. -/
theorem login_refreshes_logout_does_not_witness :
    (∃ u2 ∈ [{ alice with active_tokens := [str "t1"], updated_at := 5 }],
       u2._id = 1 ∧ u2.updated_at = 5 ∧ str "t1" ∈ u2.active_tokens)
    ∧ [{ aliceTok with active_tokens := [] }].map (fun v => v.updated_at)
        = [aliceTok].map (fun v => v.updated_at) :=
  ⟨login_refreshes_logout_does_not.1 [alice] (str "a@x.com") (str "secret1") exSha
     (str "t1") 5 [{ alice with active_tokens := [str "t1"], updated_at := 5 }]
     (str "t1") 1 (by decide),
   login_refreshes_logout_does_not.2 [aliceTok] (some (str "Bearer tok1"))
     [{ aliceTok with active_tokens := [] }] (by decide)⟩

/-- Counterexample to C4 as stated: presenting a token that is in no
user's `active_tokens` does not make `logout` a successful no-op — the
`require_auth` dependency rejects the request with 401 "Invalid token"
before the revoke is reached, so the operation is an error. -/
theorem logout_absent_token_cex :
    logout [aliceTok] (some (str "Bearer tokB"))
      = .error ⟨401, str "Invalid token"⟩ := by decide

/-- C4 (amended): the store-level revoke (`$pull`) is idempotent —
pulling an absent token leaves the user record unchanged, with no error
raised by the update itself — but the `logout` endpoint reaches it only
through `require_auth`, so a request whose token is in no user's
`active_tokens` fails with 401 and the collection is untouched. -/
theorem logout_absent_token (db : List UserDoc) (token : Str) (u : UserDoc)
    (habs : ∀ v ∈ db, token ∉ v.active_tokens) :
    logout db (some (str "Bearer " ++ token)) = .error ⟨401, str "Invalid token"⟩
    ∧ (token ∉ u.active_tokens → pull_token token u = u) := by
  constructor
  · have hnone : db.find? (fun v => v.active_tokens.contains token) = none := by
      rw [List.find?_eq_none]
      intro v hv hc
      simp at hc
      exact habs v hv hc
    unfold logout
    rw [require_auth_bearer, hnone]
  · intro hu
    unfold pull_token
    have hf : u.active_tokens.filter (fun t => !(t == token)) = u.active_tokens := by
      rw [List.filter_eq_self]
      intro a ha
      have hne : a ≠ token := fun he => hu (he ▸ ha)
      simp [hne]
    rw [hf]

/-- Witness for C4 (amended): the token `"tokZ"` is held by nobody, so
logout 401s; pulling it from `aliceTok` is the identity. -/
theorem logout_absent_token_witness :
    logout [alice] (some (str "Bearer " ++ str "tokZ"))
      = .error ⟨401, str "Invalid token"⟩
    ∧ pull_token (str "tokZ") aliceTok = aliceTok :=
  ⟨(logout_absent_token [alice] (str "tokZ") aliceTok (by decide)).1,
   (logout_absent_token [alice] (str "tokZ") aliceTok (by decide)).2 (by decide)⟩

/-- A successful `login` against a decomposed store: the first record
matching the email is `w`, the password verifies, and the ids of the
records before `w` differ from `w`'s. -/
theorem login_step (l1 l2 : List UserDoc) (w : UserDoc) (email password : Str)
    (sha256hex : Str → Str) (token : Str) (now : Nat)
    (hl1e : ∀ x ∈ l1, (fun v => (v.email == email : Bool)) x = false)
    (hwe : (w.email == email) = true)
    (hids : ∀ x ∈ l1, (fun v => (v._id == w._id : Bool)) x = false)
    (hver : verify_password sha256hex password w.password_hash = true) :
    login (l1 ++ w :: l2) email password sha256hex token now
      = .ok (l1 ++ { w with active_tokens := w.active_tokens ++ [token],
                            updated_at := now } :: l2,
             token, w._id) := by
  have hfind : (l1 ++ w :: l2).find? (fun v => v.email == email) = some w := by
    rw [find?_append_left hl1e,
        @List.find?_cons_of_pos UserDoc (fun v => v.email == email) w l2 hwe]
  unfold login
  rw [hfind]
  dsimp only
  rw [if_pos hver]
  rw [updateOne_append_left hids,
      @updateOne_cons_pos UserDoc (fun v => v._id == w._id)
        (fun v => { v with active_tokens := v.active_tokens ++ [token],
                           updated_at := now }) w l2 (by simp)]

/-- C6: multi-session support.  In a state where `u` is the first record
with the given email, the password verifies, object ids are unique and
the two fresh tokens are distinct and held by nobody: two consecutive
logins leave both tokens simultaneously in the user's `active_tokens`
(login never removes existing tokens), and a logout presenting the
second token removes only that token, leaving the first one and every
pre-existing token in the set. -/
theorem login_login_logout_multisession
    (db : List UserDoc) (email password : Str) (sha256hex : Str → Str)
    (t1 t2 : Str) (n1 n2 : Nat) (u : UserDoc)
    (hfind : db.find? (fun v => v.email == email) = some u)
    (hver : verify_password sha256hex password u.password_hash = true)
    (hnodup : (db.map (fun v => v._id)).Nodup)
    (hf1 : ∀ v ∈ db, t1 ∉ v.active_tokens)
    (hf2 : ∀ v ∈ db, t2 ∉ v.active_tokens)
    (hne : t1 ≠ t2) :
    ∃ db1 db2 db3,
      login db email password sha256hex t1 n1 = .ok (db1, t1, u._id)
      ∧ login db1 email password sha256hex t2 n2 = .ok (db2, t2, u._id)
      ∧ db2.find? (fun v => v.email == email)
          = some { u with active_tokens := u.active_tokens ++ [t1, t2],
                          updated_at := n2 }
      ∧ t1 ∈ u.active_tokens ++ [t1, t2]
      ∧ t2 ∈ u.active_tokens ++ [t1, t2]
      ∧ logout db2 (some (str "Bearer " ++ t2)) = .ok db3
      ∧ db3.find? (fun v => v.email == email)
          = some { u with active_tokens := u.active_tokens ++ [t1],
                          updated_at := n2 } := by
  rcases List.find?_eq_some.1 hfind with ⟨hpu, l1, l2, hdb, hl1⟩
  subst hdb
  have hl1e : ∀ x ∈ l1, (fun v => (v.email == email : Bool)) x = false := by
    intro x hx
    simpa using hl1 x hx
  have hids : ∀ x ∈ l1, (fun v => (v._id == u._id : Bool)) x = false := by
    intro x hx
    simpa using nodup_decomp_proj (fun v => v._id) hnodup x hx
  refine ⟨l1 ++ { u with active_tokens := u.active_tokens ++ [t1],
                         updated_at := n1 } :: l2,
          l1 ++ { u with active_tokens := u.active_tokens ++ [t1, t2],
                         updated_at := n2 } :: l2,
          l1 ++ { u with active_tokens := u.active_tokens ++ [t1],
                         updated_at := n2 } :: l2,
          ?_, ?_, ?_, by simp, by simp, ?_, ?_⟩
  · exact login_step l1 l2 u email password sha256hex t1 n1 hl1e hpu hids hver
  · have h := login_step l1 l2
      { u with active_tokens := u.active_tokens ++ [t1], updated_at := n1 }
      email password sha256hex t2 n2 hl1e hpu hids hver
    rw [h]
    dsimp only
    rw [List.append_assoc]
    rfl
  · rw [find?_append_left hl1e,
        @List.find?_cons_of_pos UserDoc (fun v => v.email == email)
          { u with active_tokens := u.active_tokens ++ [t1, t2], updated_at := n2 }
          l2 hpu]
  · have hcl1 : ∀ x ∈ l1, (fun v => (v.active_tokens.contains t2 : Bool)) x = false := by
      intro x hx
      exact contains_eq_false (hf2 x (List.mem_append_left _ hx))
    have hcu2 : (({ u with active_tokens := u.active_tokens ++ [t1, t2],
                           updated_at := n2 } : UserDoc).active_tokens.contains t2)
        = true := contains_eq_true (by simp)
    have hfind2 : (l1 ++ { u with active_tokens := u.active_tokens ++ [t1, t2],
                                  updated_at := n2 } :: l2).find?
          (fun v => v.active_tokens.contains t2)
        = some { u with active_tokens := u.active_tokens ++ [t1, t2],
                        updated_at := n2 } := by
      rw [find?_append_left hcl1,
          @List.find?_cons_of_pos UserDoc (fun v => v.active_tokens.contains t2)
            { u with active_tokens := u.active_tokens ++ [t1, t2], updated_at := n2 }
            l2 hcu2]
    have hra : require_auth
          (l1 ++ { u with active_tokens := u.active_tokens ++ [t1, t2],
                          updated_at := n2 } :: l2)
          (some (str "Bearer " ++ t2))
        = .ok { u with active_tokens := u.active_tokens ++ [t1, t2],
                       updated_at := n2 } := by
      rw [require_auth_bearer, hfind2]
    have hdrop : (str "Bearer " ++ t2).drop 7 = t2 := by
      rw [show (7 : Nat) = (str "Bearer ").length from by decide, List.drop_left]
    have hpull : pull_token t2
          { u with active_tokens := u.active_tokens ++ [t1, t2], updated_at := n2 }
        = { u with active_tokens := u.active_tokens ++ [t1], updated_at := n2 } := by
      unfold pull_token
      dsimp only
      rw [List.filter_append]
      have hself : u.active_tokens.filter (fun t => !(t == t2)) = u.active_tokens := by
        rw [List.filter_eq_self]
        intro a ha
        have hane : a ≠ t2 := fun he => hf2 u (by simp) (he ▸ ha)
        simp [hane]
      have hb : (t1 == t2) = false := by simp [hne]
      have h12 : ([t1, t2] : List Str).filter (fun t => !(t == t2)) = [t1] := by
        simp [List.filter_cons, hb]
      rw [hself, h12]
    unfold logout
    rw [hra]
    dsimp only
    rw [hdrop]
    rw [updateOne_append_left hids,
        @updateOne_cons_pos UserDoc (fun v => v._id == u._id) (pull_token t2)
          { u with active_tokens := u.active_tokens ++ [t1, t2], updated_at := n2 }
          l2 (by simp)]
    rw [hpull]
  · rw [find?_append_left hl1e,
        @List.find?_cons_of_pos UserDoc (fun v => v.email == email)
          { u with active_tokens := u.active_tokens ++ [t1], updated_at := n2 }
          l2 hpu]

/-- Witness for C6: the full two-logins-then-logout scenario run on the
concrete single-user store. -/
theorem login_login_logout_multisession_witness :
    ∃ db1 db2 db3,
      login [alice] (str "a@x.com") (str "secret1") exSha (str "t1") 5
          = .ok (db1, str "t1", alice._id)
      ∧ login db1 (str "a@x.com") (str "secret1") exSha (str "t2") 6
          = .ok (db2, str "t2", alice._id)
      ∧ db2.find? (fun v => v.email == str "a@x.com")
          = some { alice with active_tokens := alice.active_tokens
                                ++ [str "t1", str "t2"],
                              updated_at := 6 }
      ∧ str "t1" ∈ alice.active_tokens ++ [str "t1", str "t2"]
      ∧ str "t2" ∈ alice.active_tokens ++ [str "t1", str "t2"]
      ∧ logout db2 (some (str "Bearer " ++ str "t2")) = .ok db3
      ∧ db3.find? (fun v => v.email == str "a@x.com")
          = some { alice with active_tokens := alice.active_tokens ++ [str "t1"],
                              updated_at := 6 } :=
  login_login_logout_multisession [alice] (str "a@x.com") (str "secret1") exSha
    (str "t1") (str "t2") 5 6 alice (by decide) (by decide) (by decide)
    (by decide) (by decide) (by decide)

end Nexus
